import Mathlib

/-!
Verification of the S32K14x libuavcan media-layer driver
(src/src/s32k_libuavcan.cpp) via a shallow embedding in Lean.

Machine integers are modelled as Nat with explicit wraparound
(% 2^w) where the C code can overflow.  Hardware registers are
modelled as Nat values held in an explicit per-instance state
record; the dedicated FlexCAN message-buffer RAM (RAMn) and the
individual reception masks (RXIMR) are modelled as functions from
word index to word value.  Writes to the W1C interrupt flag
register IFLAG1 follow the write-one-to-clear semantics.  The
timed flag polls (flagPollTimeout_Set / flagPollTimeout_Clear)
poll a register that does not change during the poll in this
embedding, so each poll reduces to a single test of the register
value: the flag already has the desired state (Success) or it
never reaches it before the timeout (Failure).
-/

namespace S32KModel

/-- Modelled from the spec: the outcome type owned by the external
libuavcan transport library.  The spec lists the members
Success, SuccessNothing, SuccessTimeout, Failure, BufferFull and
BadArgument, with every Success variant counting as a success. -/
inductive Result where
  | Success
  | SuccessTimeout
  | SuccessNothing
  | Failure
  | BufferFull
  | BadArgument
deriving DecidableEq, Repr

/-- Modelled from the spec: isSuccess of the external library is true
exactly on the Success variants (SuccessNothing and SuccessTimeout
are distinguished normal outcomes, not errors). -/
def isSuccess : Result → Bool
  | Result.Success => true
  | Result.SuccessTimeout => true
  | Result.SuccessNothing => true
  | _ => false

/-- Tunable frame capacity for the ISR reception FIFO (S32K::Frame_Capacity). -/
def Frame_Capacity : Nat := 40

/-- Number of filters supported by a single FlexCAN instance (S32K::Filter_Count). -/
def Filter_Count : Nat := 5

/-- Size in words of one message buffer inside the FlexCAN RAM (S32K::MB_Size_Words). -/
def MB_Size_Words : Nat := 18

/-- Offset in words for reaching the payload of a message buffer (S32K::MB_Data_Offset). -/
def MB_Data_Offset : Nat := 2

/-- Number of words of dedicated message-buffer RAM (device header CAN_RAMn_COUNT). -/
def CAN_RAMn_COUNT : Nat := 128

/-- Number of individual reception mask registers (device header CAN_RXIMR_COUNT). -/
def CAN_RXIMR_COUNT : Nat := 16

/-- Device header mask CAN_MCR_HALT_MASK (bit 28). -/
def CAN_MCR_HALT_MASK : Nat := 0x10000000

/-- Device header mask CAN_MCR_FRZ_MASK (bit 30). -/
def CAN_MCR_FRZ_MASK : Nat := 0x40000000

/-- Device header mask CAN_MCR_FRZACK_MASK (bit 24). -/
def CAN_MCR_FRZACK_MASK : Nat := 0x1000000

/-- Device header mask CAN_MCR_NOTRDY_MASK (bit 27). -/
def CAN_MCR_NOTRDY_MASK : Nat := 0x8000000

/-- Device header mask CAN_MCR_MDIS_MASK (bit 31). -/
def CAN_MCR_MDIS_MASK : Nat := 0x80000000

/-- Device header mask CAN_MCR_LPMACK_MASK (bit 20). -/
def CAN_MCR_LPMACK_MASK : Nat := 0x100000

/-- Device header mask CAN_ESR2_IMB_MASK (bit 13, inactive message buffer exists). -/
def CAN_ESR2_IMB_MASK : Nat := 0x2000

/-- Device header mask CAN_ESR2_VPS_MASK (bit 14, valid priority status). -/
def CAN_ESR2_VPS_MASK : Nat := 0x4000

/-- Device header mask CAN_WMBn_CS_DLC_MASK (bits 16..19 of the control word). -/
def CAN_WMBn_CS_DLC_MASK : Nat := 0xF0000

/-- Device header mask CAN_WMBn_ID_ID_MASK (29 identifier bits). -/
def CAN_WMBn_ID_ID_MASK : Nat := 0x1FFFFFFF

/-- Modelled from the spec: the non-linear CAN-FD DLC to byte length
table of the external library function FrameType::dlcToLength.
DLC 0 to 8 map one to one, DLC 9 to 15 map to 12, 16, 20, 24, 32,
48 and 64 bytes. -/
def dlcToLength (dlc : Nat) : Nat :=
  if dlc ≤ 8 then dlc
  else if dlc = 9 then 12
  else if dlc = 10 then 16
  else if dlc = 11 then 20
  else if dlc = 12 then 24
  else if dlc = 13 then 32
  else if dlc = 14 then 48
  else 64

/-- Modelled from the spec: the inverse table used by the external
library when a frame is built from a byte length (FrameType::getDLC).
Only the valid CAN-FD byte lengths occur. -/
def lengthToDlc (len : Nat) : Nat :=
  if len ≤ 8 then len
  else if len ≤ 12 then 9
  else if len ≤ 16 then 10
  else if len ≤ 20 then 11
  else if len ≤ 24 then 12
  else if len ≤ 32 then 13
  else if len ≤ 48 then 14
  else 15

/-- The byte lengths a CAN-FD frame can actually have (image of dlcToLength). -/
def validFDLengths : List Nat := [0, 1, 2, 3, 4, 5, 6, 7, 8, 12, 16, 20, 24, 32, 48, 64]

/-- A decoded CAN-FD frame as the driver sees it: a 29-bit extended
identifier, the payload bytes and a timestamp in microseconds
(libuavcan media::CAN::Frame, an external library value type). -/
structure Frame where
  id : Nat
  payload : List Nat
  timestamp : Nat
deriving DecidableEq, Repr

/-- A reception filter: id and mask pair (external library value type). -/
structure Filter where
  id : Nat
  mask : Nat
deriving DecidableEq, Repr

/-! ### Word packing and the byte reversal of REV_BYTES_32 -/

/-- Four bytes to the 32-bit word a little-endian load of the byte
buffer produces (the reinterpret cast of frame.data as uint32). -/
def pack4 (b0 b1 b2 b3 : Nat) : Nat :=
  b0 + 2 ^ 8 * b1 + 2 ^ 16 * b2 + 2 ^ 24 * b3

/-- Byte-order reversal of one 32-bit word, the effect of the
REV_BYTES_32 macro (hardware REV instruction): the output bytes are
the input bytes in reverse order. -/
def rev32 (w : Nat) : Nat :=
  pack4 (w / 2 ^ 24 % 2 ^ 8) (w / 2 ^ 16 % 2 ^ 8) (w / 2 ^ 8 % 2 ^ 8) (w % 2 ^ 8)

/-- Grouping of a byte list into 32-bit words, four bytes per word,
the trailing bytes padded with zero.  This is how the payload byte
buffer is consumed four bytes at a time in messageBuffer_Transmit. -/
def bytesToWords : List Nat → List Nat
  | [] => []
  | [a] => [pack4 a 0 0 0]
  | [a, b] => [pack4 a b 0 0]
  | [a, b, c] => [pack4 a b c 0]
  | a :: b :: c :: d :: rest => pack4 a b c d :: bytesToWords rest

/-- The bytes a little-endian store of a word list produces (the
reinterpret cast of the harvested word array as a byte buffer in
the ISR handler). -/
def wordsToBytes : List Nat → List Nat
  | [] => []
  | w :: rest => w % 2 ^ 8 :: w / 2 ^ 8 % 2 ^ 8 :: w / 2 ^ 16 % 2 ^ 8 :: w / 2 ^ 24 % 2 ^ 8 :: wordsToBytes rest

/-- Number of words moved for a payload of len bytes, as computed by
the source loop bound (len >> 2) + min 1 (len & 3). -/
def wordCount (len : Nat) : Nat :=
  (len >>> 2) + min 1 (len % 4)

/-! ### Hardware and driver state -/

/-- Device header mask CAN_ESR2_LPTM_MASK (bits 16..22, lowest priority inactive MB). -/
def CAN_ESR2_LPTM_MASK : Nat := 0x7F0000

/-- Device header mask CAN_MCR_FDEN_MASK (bit 11). -/
def CAN_MCR_FDEN_MASK : Nat := 0x800

/-- Device header mask CAN_MCR_MAXMB_MASK (bits 0..6). -/
def CAN_MCR_MAXMB_MASK : Nat := 0x7F

/-- Device header mask CAN_MCR_SRXDIS_MASK (bit 17). -/
def CAN_MCR_SRXDIS_MASK : Nat := 0x20000

/-- Device header mask CAN_MCR_IRMQ_MASK (bit 16). -/
def CAN_MCR_IRMQ_MASK : Nat := 0x10000

/-- Pointwise update of a word-indexed memory, the effect of one
register or RAM word write. -/
def upd (f : Nat → Nat) (k v : Nat) : Nat → Nat :=
  fun x => if x = k then v else f x

/-- Sequential word writes to consecutive RAM indices starting at base,
the effect of the payload copy loop of messageBuffer_Transmit. -/
def writeWords (f : Nat → Nat) (base : Nat) : List Nat → (Nat → Nat)
  | [] => f
  | w :: rest => writeWords (upd f base w) (base + 1) rest

/-- Write to a write-one-to-clear flag register: every bit that is one
in the written value v is cleared in the register r, every other bit
keeps its value.  Since r &&& v is a sub-mask of r, the subtraction
clears exactly the bits of r that are also set in v. -/
def w1cWrite (r v : Nat) : Nat := r - (r &&& v)

/-- Per-instance FlexCAN state together with the per-instance driver
state shared between the interrupt handler and the foreground
operations: the MCR and ESR2 registers, the IFLAG1 interrupt flags,
the free-running 16-bit timestamp timer register, the message-buffer
RAM (RAMn) and individual reception masks (RXIMR) as word-indexed
memories, the reception FIFO (the slice of S32K::g_frame_ISRbuffer
belonging to this instance) and the discard counter (the slice of
S32K::g_discarded_frames_count).  Registers of the one-time clock
tree, bit timing and pin multiplexing bring-up are not observable by
any claim and are not part of the state. -/
structure InstState where
  mcr : Nat
  esr2 : Nat
  iflag1 : Nat
  timer : Nat
  ram : Nat → Nat
  rximr : Nat → Nat
  queue : List Frame
  discards : Nat

/-- The global state: the chained LPIT channels of the 64-bit software
clock and the array of per-instance states (one per FlexCAN
instance, so the list length plays the role of CANFD_Count). -/
structure Sys where
  lpit1 : Nat
  lpit0 : Nat
  insts : List InstState

/-- S32K::flagPollTimeout_Set: blocking poll of flagRegister and
flag_Mask, bounded by an LPIT timeout of about 0.2 s.  The polled
register keeps one value for the whole poll in this embedding, so
the poll returns Success exactly when the flag is set in that value
and otherwise runs into the timeout and returns Failure. -/
def flagPollTimeout_Set (flagRegister flag_Mask : Nat) : Result :=
  if flagRegister &&& flag_Mask ≠ 0 then Result.Success else Result.Failure

/-- S32K::flagPollTimeout_Clear: the wait-for-clear flavor of the
timed poll, under the same static-register reading. -/
def flagPollTimeout_Clear (flagRegister flag_Mask : Nat) : Result :=
  if flagRegister &&& flag_Mask = 0 then Result.Success else Result.Failure

/-! ### Timestamp reconciliation -/

/-- The non-overflowing 64-bit software clock value harvested in
resolve_Timestamp from the two chained down-counting LPIT channels:
each 32-bit channel value is inverted and the halves are combined
into (high << 32) | low. -/
def targetSource (lpit1 lpit0 : Nat) : Nat :=
  ((0xFFFFFFFF - lpit1 % 2 ^ 32) <<< 32) ||| (0xFFFFFFFF - lpit0 % 2 ^ 32)

/-- S32K_InterfaceGroup::resolve_Timestamp: the peripheral timer
register is read as the current source clock value, the software
clock as the target value, the absolute difference between current
and captured source value is subtracted from the target (uint64
arithmetic, wrapping) and the result is divided by 80 to convert the
80 MHz ticks into microseconds. -/
def resolve_Timestamp (frame_timestamp timerReg lpit1 lpit0 : Nat) : Nat :=
  let FlexCAN_timestamp := timerReg % 2 ^ 32
  let captured := frame_timestamp % 2 ^ 64
  let target_source := targetSource lpit1 lpit0
  let source_delta :=
    if FlexCAN_timestamp > captured then FlexCAN_timestamp - captured
    else captured - FlexCAN_timestamp
  (target_source + 2 ^ 64 - source_delta) % 2 ^ 64 / 80

/-! ### Mailbox codec -/

/-- The frame harvested from receive message buffer MB_index by the
interrupt handler: raw DLC out of the control word, byte length
through the DLC table, the 29 masked identifier bits, the payload
words read back byte-reversed and reinterpreted as bytes, and the
timestamp reconciled from the low 16 bits of the control word. -/
def decodeMailbox (ram : Nat → Nat) (MB_index timerReg lpit1 lpit0 : Nat) : Frame :=
  let cs := ram (MB_index * MB_Size_Words)
  let dlc_ISR_raw := (cs &&& CAN_WMBn_CS_DLC_MASK) >>> 16
  let payloadLength_ISR := dlcToLength dlc_ISR_raw
  let id_ISR := ram (MB_index * MB_Size_Words + 1) &&& CAN_WMBn_ID_ID_MASK
  let data_ISR_word := (List.range (wordCount payloadLength_ISR)).map
    (fun i => rev32 (ram (MB_index * MB_Size_Words + MB_Data_Offset + i)))
  let MB_timestamp := cs &&& 0xFFFF
  { id := id_ISR,
    payload := (wordsToBytes data_ISR_word).take payloadLength_ISR,
    timestamp := resolve_Timestamp MB_timestamp timerReg lpit1 lpit0 }

/-- The control word written for a transmission: EDL and BRS and CODE
0xC in the top byte, IDE in byte 1, and the DLC field, exactly as
composed from CAN_RAMn_DATA_BYTE_1(0x20), CAN_WMBn_CS_DLC(dlc) and
CAN_RAMn_DATA_BYTE_0(0xCC). -/
def txControlWord (dlc : Nat) : Nat :=
  ((0x20 <<< 16) &&& 0xFF0000) ||| ((dlc <<< 16) &&& CAN_WMBn_CS_DLC_MASK) |||
    ((0xCC <<< 24) &&& 0xFF000000)

/-- S32K_InterfaceGroup::messageBuffer_Transmit: write the payload
words byte-swapped into the message buffer, then the masked id word,
then the control word (which requests the transmission), then poll
with timeout for the completion flag of the buffer and clear it with
a read-modify-write of the W1C flag register.  The flag value the
hardware presents during the poll is the iflag1 component of the
pre-state. -/
def messageBuffer_Transmit (TX_MB_index : Nat) (frame : Frame) (inst : InstState) :
    Result × InstState :=
  let ram1 := writeWords inst.ram (TX_MB_index * MB_Size_Words + MB_Data_Offset)
    ((bytesToWords frame.payload).map rev32)
  let ram2 := upd ram1 (TX_MB_index * MB_Size_Words + 1) (frame.id &&& CAN_WMBn_ID_ID_MASK)
  let ram3 := upd ram2 (TX_MB_index * MB_Size_Words)
    (txControlWord (lengthToDlc frame.payload.length))
  let status := flagPollTimeout_Set inst.iflag1 (1 <<< TX_MB_index)
  let iflag' := w1cWrite inst.iflag1 (inst.iflag1 ||| (1 <<< TX_MB_index))
  (status, { inst with ram := ram3, iflag1 := iflag' })

/-! ### Interrupt handler -/

/-- The switch of the interrupt handler: the masked flag register
value is compared against the exact enumerator values of
MessageBuffer2 to MessageBuffer6; any other value, including several
valid bits set at once, leaves the index at its initial value 0. -/
def mbIndexOf (masked : Nat) : Nat :=
  if masked = 0x4 then 2
  else if masked = 0x8 then 3
  else if masked = 0x10 then 4
  else if masked = 0x20 then 5
  else if masked = 0x40 then 6
  else 0

/-- S32K_InterfaceGroup::S32K_libuavcan_ISR_handler acting on the state
of the interrupted instance.  The body runs with all interrupts
masked, so it is one atomic step.  The flag register is masked with
124 (bits 2..6), the switch picks a message buffer index, and when
the index is non-zero the frame is harvested and appended when the
FIFO size is at most Frame_Capacity, otherwise the discard counter
is incremented; in both cases the interrupt flag of the serviced
buffer is cleared with a read-modify-write of the W1C register.
lpit1 and lpit0 are the LPIT channel values read during timestamp
resolution. -/
def S32K_libuavcan_ISR_handler (lpit1 lpit0 : Nat) (st : InstState) : InstState :=
  let MB_index := mbIndexOf (st.iflag1 &&& 124)
  if MB_index ≠ 0 then
    let st1 :=
      if st.queue.length ≤ Frame_Capacity then
        { st with queue := st.queue ++ [decodeMailbox st.ram MB_index st.timer lpit1 lpit0] }
      else
        { st with discards := st.discards + 1 }
    { st1 with iflag1 := w1cWrite st1.iflag1 (st1.iflag1 ||| (1 <<< MB_index)) }
  else st

/-- The interrupt vector entry for one instance lifted to the global
state: the handler runs on the state slice of its instance. -/
def isrAt (inst_index : Nat) (sys : Sys) : Sys :=
  match sys.insts.get? inst_index with
  | none => sys
  | some inst =>
      let inst1 := S32K_libuavcan_ISR_handler sys.lpit1 sys.lpit0 inst
      { sys with insts := sys.insts.set inst_index inst1 }

/-- Modelled hardware behavior: a frame matching a filter arrives and
the hardware stores it into receive message buffer 2 of the instance
and raises the completion interrupt flag of that buffer. -/
def recvAt (inst_index : Nat) (sys : Sys) : Sys :=
  match sys.insts.get? inst_index with
  | none => sys
  | some inst =>
      let inst1 := { inst with iflag1 := inst.iflag1 ||| 0x4 }
      { sys with insts := sys.insts.set inst_index inst1 }

/-! ### Foreground operations -/

/-- The C++ unsigned evaluation of interface_index - 1 used to index
the per-instance arrays (the index type is unsigned and at least 8
bits wide, 32 bits here; for interface_index = 0 the wrapped value
is out of range of every per-instance array for any width of at
least 8 bits). -/
def idxSub1 (interface_index : Nat) : Nat := (interface_index + 2 ^ 32 - 1) % 2 ^ 32

/-- S32K_InterfaceGroup::read over the array of per-instance states,
with CANFD_Count and the RxFramesLen template parameter explicit.
The result is none when the C++ indexes the per-instance arrays out
of bounds (undefined behavior) and otherwise carries the status, the
number of frames read, the new per-instance states and the frame
handed to the caller, if any. -/
def read (CANFD_Count RxFramesLen interface_index : Nat) (insts : List InstState) :
    Option (Result × Nat × List InstState × Option Frame) :=
  let status := if interface_index > CANFD_Count then Result.BadArgument
    else Result.SuccessNothing
  if isSuccess status then
    match insts.get? (idxSub1 interface_index) with
    | none => none
    | some inst =>
      match inst.queue with
      | [] => some (status, 0, insts, none)
      | f :: rest =>
          some (Result.Success, RxFramesLen,
            insts.set (idxSub1 interface_index) { inst with queue := rest }, some f)
  else
    some (status, 0, insts, none)

/-- S32K_InterfaceGroup::write over the array of per-instance states,
with CANFD_Count and the TxFramesLen template parameter explicit.
The function reads ESR2 of FlexCAN[interface_index - 1]
unconditionally, also when the input validation already yielded
BadArgument, and a transmission overwrites that status.  The result
is none when the C++ indexes the peripheral array out of bounds;
otherwise it carries the returned status, the assigned value of
out_frames_written when the transmit path assigned one (the
reference argument is untouched on the other paths), and the new
per-instance states. -/
def write (CANFD_Count TxFramesLen interface_index frames_len : Nat) (frame : Frame)
    (insts : List InstState) : Option (Result × Option Nat × List InstState) :=
  let status1 := if frames_len > TxFramesLen ∨ interface_index > CANFD_Count then
    Result.BadArgument else Result.BufferFull
  match insts.get? (idxSub1 interface_index) with
  | none => none
  | some inst =>
    if inst.esr2 &&& CAN_ESR2_IMB_MASK ≠ 0 ∧ inst.esr2 &&& CAN_ESR2_VPS_MASK ≠ 0 then
      let mb_index := (inst.esr2 &&& CAN_ESR2_LPTM_MASK) >>> 16
      let r := messageBuffer_Transmit mb_index frame inst
      some (r.1, some (if isSuccess r.1 then TxFramesLen else 0),
        insts.set (idxSub1 interface_index) r.2)
    else
      some (status1, none, insts)

/-- The filter programming loop shared by reconfigureFilters and
startInterfaceGroup: for the filter with running index j the mask
goes into RXIMR[j+2], the control word of message buffer j+2 is set
to active-empty-receive with extended id (bytes 0xC4 and 0x20), and
the id word of that buffer is programmed from the filter. -/
def programFilters : List Filter → Nat → InstState → InstState
  | [], _, inst => inst
  | f :: rest, j, inst =>
      let rxControlWord : Nat := ((0xC4 <<< 24) &&& 0xFF000000) ||| ((0x20 <<< 16) &&& 0xFF0000)
      let inst1 := { inst with rximr := upd inst.rximr (j + 2) f.mask }
      let inst2 := { inst1 with ram := upd inst1.ram ((j + 2) * MB_Size_Words) rxControlWord }
      let inst3 := { inst2 with ram := upd inst2.ram ((j + 2) * MB_Size_Words + 1) f.id }
      programFilters rest (j + 1) inst3

/-- The per-instance body of the reconfigureFilters loop, carrying the
running status across instances exactly as the source does.  The
freeze request only sets the HALT and FRZ bits of MCR; the source
contains no poll of FRZACK between that request and the guarded
block that zeroes the message-buffer RAM, so the guard only sees the
status carried in from earlier instances.  The two timed polls
happen at freeze exit. -/
def reconfigureInst (filter_config : List Filter) (status : Result) (inst : InstState) :
    Result × InstState :=
  let instA := { inst with mcr := inst.mcr ||| (CAN_MCR_HALT_MASK ||| CAN_MCR_FRZ_MASK) }
  if isSuccess status then
    let instB := { instA with ram := fun j => if j < CAN_RAMn_COUNT then 0 else instA.ram j }
    let instC := { instB with rximr := fun j => if j < CAN_RXIMR_COUNT then 0 else instB.rximr j }
    let instD := programFilters filter_config 0 instC
    let instE := { instD with
      mcr := instD.mcr - (instD.mcr &&& (CAN_MCR_HALT_MASK ||| CAN_MCR_FRZ_MASK)) }
    if isSuccess status then
      let status1 := flagPollTimeout_Clear instE.mcr CAN_MCR_FRZACK_MASK
      if isSuccess status1 then
        (flagPollTimeout_Clear instE.mcr CAN_MCR_NOTRDY_MASK, instE)
      else (status1, instE)
    else (status, instE)
  else (status, instA)

/-- The instance loop of reconfigureFilters. -/
def reconfigureLoop (filter_config : List Filter) : Result → List InstState →
    Result × List InstState
  | status, [] => (status, [])
  | status, inst :: rest =>
      let r1 := reconfigureInst filter_config status inst
      let r2 := reconfigureLoop filter_config r1.1 rest
      (r2.1, r1.2 :: r2.2)

/-- S32K_InterfaceGroup::reconfigureFilters: validate the filter count
against Filter_Count, then run the freeze, rewrite and unfreeze
sequence over every instance. -/
def reconfigureFilters (filter_config : List Filter) (insts : List InstState) :
    Result × List InstState :=
  if filter_config.length > Filter_Count then (Result.BadArgument, insts)
  else reconfigureLoop filter_config Result.Success insts

/-- The per-instance initialization of startInterfaceGroup: module
disable and re-enable around clock source selection, freeze entry
request followed by an untimed busy wait for the acknowledge (the
wait has no timeout path, the hardware is assumed to acknowledge),
CAN-FD enablement, bit-timing programming (registers outside the
modelled state), message-buffer RAM and reception mask zeroing,
MAXMB configuration, filter programming, reception interrupt
enablement and freeze exit with two untimed busy waits. -/
def startInstInit (filter_config : List Filter) (inst : InstState) : InstState :=
  let i1 := { inst with mcr := inst.mcr ||| CAN_MCR_MDIS_MASK }
  let i2 := { i1 with mcr := i1.mcr - (i1.mcr &&& CAN_MCR_MDIS_MASK) }
  let i3 := { i2 with mcr := i2.mcr ||| (CAN_MCR_HALT_MASK ||| CAN_MCR_FRZ_MASK) }
  let i4 := { i3 with mcr := i3.mcr ||| (CAN_MCR_FDEN_MASK ||| CAN_MCR_FRZ_MASK) }
  let i5 := { i4 with ram := fun j => if j < CAN_RAMn_COUNT then 0 else i4.ram j }
  let i6 := { i5 with rximr := fun j => if j < CAN_RXIMR_COUNT then 0 else i5.rximr j }
  let i7 := { i6 with mcr := i6.mcr - (i6.mcr &&& CAN_MCR_MAXMB_MASK) }
  let i8 := { i7 with mcr := i7.mcr ||| (6 ||| CAN_MCR_SRXDIS_MASK ||| CAN_MCR_IRMQ_MASK) }
  let i9 := programFilters filter_config 0 i8
  { i9 with mcr := i9.mcr - (i9.mcr &&& (CAN_MCR_HALT_MASK ||| CAN_MCR_FRZ_MASK)) }

/-- S32K_InterfaceManager::startInterfaceGroup: the out_group argument
is nulled, the filter count is validated, then the clock tree, PLL,
LPIT chain and every FlexCAN instance are brought up unconditionally
(the bring-up is not guarded by the status), and at the end the
address of the singleton group object is assigned to out_group
unconditionally and the status is returned.  The returned Option
Unit is the value of out_group at return: some () stands for the
non-null singleton address. -/
def startInterfaceGroup (filter_config : List Filter) (sys : Sys) :
    Result × Option Unit × Sys :=
  let status := if filter_config.length > Filter_Count then Result.BadArgument
    else Result.Success
  let sys1 := { sys with insts := sys.insts.map (startInstInit filter_config) }
  (status, some (), sys1)

/-- The instance loop of stopInterfaceGroup, carrying the status: each
instance is disabled and the low-power acknowledge is polled with
timeout under an isSuccess guard. -/
def stopLoop : Result → List InstState → Result × List InstState
  | status, [] => (status, [])
  | status, inst :: rest =>
      let inst1 := { inst with mcr := inst.mcr ||| CAN_MCR_MDIS_MASK }
      let status1 := if isSuccess status then
        flagPollTimeout_Set inst1.mcr CAN_MCR_LPMACK_MASK else status
      let r := stopLoop status1 rest
      (r.1, inst1 :: r.2)

/-- S32K_InterfaceManager::stopInterfaceGroup: disable every instance
with a timed poll for the low-power acknowledge, reset the LPIT
chain (not part of the modelled state) and null the group pointer
(the returned Option Unit, always none). -/
def stopInterfaceGroup (sys : Sys) : Result × Option Unit × Sys :=
  let r := stopLoop Result.Success sys.insts
  (r.1, none, { sys with insts := r.2 })

/-! ### Concrete states used by the witnesses and counterexamples -/

/-- A frame with id 0, no payload and timestamp 0. -/
def frameZero : Frame := { id := 0, payload := [], timestamp := 0 }

/-- An instance state with all registers and memories zero, an empty
FIFO and a zero discard counter (the static zero initialization of
the global driver state at program load). -/
def instZero : InstState :=
  { mcr := 0, esr2 := 0, iflag1 := 0, timer := 0, ram := fun _ => 0,
    rximr := fun _ => 0, queue := [], discards := 0 }

/-- An instance whose FIFO holds exactly Frame_Capacity frames while
message buffer 2 has its completion flag raised. -/
def instAtCapacity : InstState :=
  { instZero with iflag1 := 4, queue := List.replicate 40 frameZero }

/-- An instance on which the completion flags of message buffers 2 and
3 are raised at the same time. -/
def instTwoFlags : InstState := { instZero with iflag1 := 12 }

/-- An instance on which only the completion flag of message buffer 2
is raised. -/
def instOneFlag : InstState := { instZero with iflag1 := 4 }

/-- An instance whose message-buffer RAM holds a non-zero marker value
in every word and whose MCR never shows the freeze acknowledge. -/
def instMark : InstState := { instZero with ram := fun _ => 7 }

/-- An instance whose ESR2 reports an inactive message buffer with
valid priority status (transmit path available, lowest free buffer
0) and whose completion flag for buffer 0 is already presented. -/
def instReady : InstState := { instZero with esr2 := 0x6000, iflag1 := 1 }

/-- A five byte frame used to drive the transmit path. -/
def frameFive : Frame := { id := 5, payload := [1, 2, 3, 4, 5], timestamp := 0 }

/-- A filter list longer than the Filter_Count capacity. -/
def badFilters : List Filter := List.replicate 6 { id := 0, mask := 0 }

/-- A one-instance system in the boot state. -/
def sysOne : Sys := { lpit1 := 0, lpit0 := 0, insts := [instZero] }

/-- The boot state with n instances: every counter and register of the
modelled driver state is statically zero initialized. -/
def bootSys (n : Nat) : Sys := { lpit1 := 0, lpit0 := 0, insts := List.replicate n instZero }

/-- The system after a first successful group start followed by 42
hardware receptions each serviced by the interrupt handler: the
FIFO holds 41 frames (see C1) and the 42nd reception was discarded. -/
def sysAfterTraffic : Sys :=
  (fun s => isrAt 0 (recvAt 0 s))^[42] ((startInterfaceGroup [] sysOne).2.2)

/-- An instance whose FIFO holds two distinct frames. -/
def instQ2 : InstState :=
  { instZero with queue := [{ id := 1, payload := [], timestamp := 0 },
                            { id := 2, payload := [], timestamp := 0 }] }

/-! ### Operation alphabet of a group lifetime -/

/-- The operations that can touch the shared driver state during a
group lifetime: interrupt entries, hardware receptions, the
foreground operations and the manager lifecycle calls. -/
inductive DriverOp where
  | isr (i : Nat)
  | recv (i : Nat)
  | readOp (idx : Nat)
  | writeOp (idx flen : Nat) (f : Frame)
  | reconfig (fs : List Filter)
  | start (fs : List Filter)
  | stop

/-- One step of the global state under an operation.  The out-of-range
undefined-behavior branches of read and write (result none) leave
the state unchanged here; CANFD_Count is the instance count and the
template lengths are the one-frame instantiation of the driver. -/
def stepOp : DriverOp → Sys → Sys
  | DriverOp.isr i, sys => isrAt i sys
  | DriverOp.recv i, sys => recvAt i sys
  | DriverOp.readOp idx, sys =>
      match read sys.insts.length 1 idx sys.insts with
      | some r => { sys with insts := r.2.2.1 }
      | none => sys
  | DriverOp.writeOp idx flen f, sys =>
      match write sys.insts.length 1 idx flen f sys.insts with
      | some r => { sys with insts := r.2.2 }
      | none => sys
  | DriverOp.reconfig fs, sys => { sys with insts := (reconfigureFilters fs sys.insts).2 }
  | DriverOp.start fs, sys => (startInterfaceGroup fs sys).2.2
  | DriverOp.stop, sys => (stopInterfaceGroup sys).2.2

/-- Repeated read on one instance collecting the returned frames, used
to state the FIFO order property. -/
def readDrain (CANFD_Count RxFramesLen interface_index : Nat) :
    List InstState → Nat → List Frame
  | _, 0 => []
  | insts, fuel + 1 =>
      match read CANFD_Count RxFramesLen interface_index insts with
      | some (Result.Success, _, insts1, some f) =>
          f :: readDrain CANFD_Count RxFramesLen interface_index insts1 fuel
      | _ => []

/-! ### Helper lemmas -/

lemma pack4_lt {b0 b1 b2 b3 : Nat} (h0 : b0 < 256) (h1 : b1 < 256) (h2 : b2 < 256)
    (h3 : b3 < 256) : pack4 b0 b1 b2 b3 < 2 ^ 32 := by
  unfold pack4
  omega

lemma pack4_byte0 {b0 b1 b2 b3 : Nat} (h0 : b0 < 256) :
    pack4 b0 b1 b2 b3 % 2 ^ 8 = b0 := by
  unfold pack4
  omega

lemma pack4_byte1 {b0 b1 b2 b3 : Nat} (h0 : b0 < 256) (h1 : b1 < 256) :
    pack4 b0 b1 b2 b3 / 2 ^ 8 % 2 ^ 8 = b1 := by
  unfold pack4
  omega

lemma pack4_byte2 {b0 b1 b2 b3 : Nat} (h0 : b0 < 256) (h1 : b1 < 256) (h2 : b2 < 256) :
    pack4 b0 b1 b2 b3 / 2 ^ 16 % 2 ^ 8 = b2 := by
  unfold pack4
  omega

lemma pack4_byte3 {b0 b1 b2 b3 : Nat} (h0 : b0 < 256) (h1 : b1 < 256) (h2 : b2 < 256)
    (h3 : b3 < 256) : pack4 b0 b1 b2 b3 / 2 ^ 24 % 2 ^ 8 = b3 := by
  unfold pack4
  omega

lemma rev32_pack4 {b0 b1 b2 b3 : Nat} (h0 : b0 < 256) (h1 : b1 < 256) (h2 : b2 < 256)
    (h3 : b3 < 256) : rev32 (pack4 b0 b1 b2 b3) = pack4 b3 b2 b1 b0 := by
  unfold rev32
  rw [pack4_byte0 h0, pack4_byte1 h0 h1, pack4_byte2 h0 h1 h2, pack4_byte3 h0 h1 h2 h3]

lemma pack4_bytes_self {w : Nat} (h : w < 2 ^ 32) :
    pack4 (w % 2 ^ 8) (w / 2 ^ 8 % 2 ^ 8) (w / 2 ^ 16 % 2 ^ 8) (w / 2 ^ 24 % 2 ^ 8) = w := by
  unfold pack4
  omega

lemma rev32_rev32 {w : Nat} (h : w < 2 ^ 32) : rev32 (rev32 w) = w := by
  have hb : ∀ x : Nat, x % 2 ^ 8 < 256 := fun x => Nat.mod_lt _ (by norm_num)
  calc rev32 (rev32 w)
      = rev32 (pack4 (w / 2 ^ 24 % 2 ^ 8) (w / 2 ^ 16 % 2 ^ 8) (w / 2 ^ 8 % 2 ^ 8)
          (w % 2 ^ 8)) := rfl
    _ = pack4 (w % 2 ^ 8) (w / 2 ^ 8 % 2 ^ 8) (w / 2 ^ 16 % 2 ^ 8) (w / 2 ^ 24 % 2 ^ 8) :=
          rev32_pack4 (hb _) (hb _) (hb _) (hb _)
    _ = w := pack4_bytes_self h

theorem bytesToWords_length : ∀ l : List Nat, (bytesToWords l).length = wordCount l.length
  | [] => by simp [bytesToWords, wordCount]
  | [_] => by simp [bytesToWords, wordCount]
  | [_, _] => by simp [bytesToWords, wordCount]
  | [_, _, _] => by simp [bytesToWords, wordCount]
  | _ :: _ :: _ :: _ :: rest => by
      have ih := bytesToWords_length rest
      simp only [bytesToWords, List.length_cons, ih, wordCount]
      omega

theorem bytesToWords_lt : ∀ l : List Nat, (∀ b ∈ l, b < 256) →
    ∀ w ∈ bytesToWords l, w < 2 ^ 32
  | [], _ => by simp [bytesToWords]
  | [a], h => by
      simp only [bytesToWords, List.mem_singleton]
      intro w hw
      rw [hw]
      exact pack4_lt (h a (by simp)) (by norm_num) (by norm_num) (by norm_num)
  | [a, b], h => by
      simp only [bytesToWords, List.mem_singleton]
      intro w hw
      rw [hw]
      exact pack4_lt (h a (by simp)) (h b (by simp)) (by norm_num) (by norm_num)
  | [a, b, c], h => by
      simp only [bytesToWords, List.mem_singleton]
      intro w hw
      rw [hw]
      exact pack4_lt (h a (by simp)) (h b (by simp)) (h c (by simp)) (by norm_num)
  | a :: b :: c :: d :: rest, h => by
      simp only [bytesToWords, List.mem_cons]
      intro w hw
      rcases hw with hw | hw
      · rw [hw]
        exact pack4_lt (h a (by simp)) (h b (by simp)) (h c (by simp)) (h d (by simp))
      · exact bytesToWords_lt rest (fun x hx => h x (by simp [hx])) w hw

theorem take_wordsToBytes_bytesToWords : ∀ l : List Nat, (∀ b ∈ l, b < 256) →
    (wordsToBytes (bytesToWords l)).take l.length = l
  | [], _ => by simp [bytesToWords, wordsToBytes]
  | [a], h => by
      have ha := h a (by simp)
      simp [bytesToWords, wordsToBytes, pack4]
      omega
  | [a, b], h => by
      have ha := h a (by simp)
      have hb := h b (by simp)
      simp [bytesToWords, wordsToBytes, pack4]
      constructor <;> omega
  | [a, b, c], h => by
      have ha := h a (by simp)
      have hb := h b (by simp)
      have hc := h c (by simp)
      simp [bytesToWords, wordsToBytes, pack4]
      refine ⟨by omega, by omega, by omega⟩
  | a :: b :: c :: d :: rest, h => by
      have ha := h a (by simp)
      have hb := h b (by simp)
      have hc := h c (by simp)
      have hd := h d (by simp)
      have ih := take_wordsToBytes_bytesToWords rest (fun x hx => h x (by simp [hx]))
      simp only [bytesToWords, wordsToBytes, List.length_cons, List.take_succ_cons]
      rw [pack4_byte0 ha, pack4_byte1 ha hb, pack4_byte2 ha hb hc, pack4_byte3 ha hb hc hd, ih]

lemma upd_self (f : Nat → Nat) (k v : Nat) : upd f k v k = v := by
  simp [upd]

lemma upd_other (f : Nat → Nat) (k v x : Nat) (h : x ≠ k) : upd f k v x = f x := by
  simp [upd, h]

lemma land_lor_self (x y : Nat) : x &&& (x ||| y) = x := by
  apply Nat.eq_of_testBit_eq
  intro i
  simp only [Nat.testBit_land, Nat.testBit_lor]
  cases x.testBit i <;> simp

lemma w1cWrite_rmw (x y : Nat) : w1cWrite x (x ||| y) = 0 := by
  unfold w1cWrite
  rw [land_lor_self]
  omega

lemma writeWords_out : ∀ (ws : List Nat) (f : Nat → Nat) (base x : Nat),
    x < base ∨ base + ws.length ≤ x → writeWords f base ws x = f x
  | [], f, base, x, _ => rfl
  | w :: rest, f, base, x, h => by
      have hr : writeWords (upd f base w) (base + 1) rest x = upd f base w x := by
        apply writeWords_out
        simp at h
        omega
      rw [writeWords, hr, upd_other]
      simp at h
      omega

lemma writeWords_in : ∀ (ws : List Nat) (f : Nat → Nat) (base i : Nat),
    i < ws.length → writeWords f base ws (base + i) = ws.getD i 0
  | [], _, _, i, h => by simp at h
  | w :: rest, f, base, 0, _ => by
      have : writeWords (upd f base w) (base + 1) rest (base + 0) = upd f base w base := by
        apply writeWords_out
        omega
      rw [writeWords, this, upd_self]
      rfl
  | w :: rest, f, base, i + 1, h => by
      have : base + (i + 1) = (base + 1) + i := by omega
      rw [writeWords, this, writeWords_in rest (upd f base w) (base + 1) i (by simpa using h)]
      rfl

lemma range_map_getD : ∀ l : List Nat, (List.range l.length).map (fun i => l.getD i 0) = l
  | [] => rfl
  | a :: t => by
      rw [List.length_cons, List.range_succ_eq_map, List.map_cons, List.map_map]
      have : ((fun i => (a :: t).getD i 0) ∘ Nat.succ) = fun i => t.getD i 0 := by
        funext i
        simp
      rw [this, range_map_getD t]
      rfl

lemma dlc_roundtrip {len : Nat} (h : len ∈ validFDLengths) :
    (txControlWord (lengthToDlc len) &&& CAN_WMBn_CS_DLC_MASK) >>> 16 = lengthToDlc len ∧
    dlcToLength (lengthToDlc len) = len := by
  simp [validFDLengths] at h
  rcases h with rfl | rfl | rfl | rfl | rfl | rfl | rfl | rfl | rfl | rfl | rfl | rfl | rfl | rfl | rfl | rfl <;>
    exact ⟨by decide, by decide⟩

lemma idxSub1_eq {idx : Nat} (h1 : 1 ≤ idx) (h2 : idx ≤ 2 ^ 32) : idxSub1 idx = idx - 1 := by
  unfold idxSub1
  omega

lemma getD_set (l : List α) (k j : Nat) (a d : α) :
    (l.set k a).getD j d = if k = j ∧ j < l.length then a else l.getD j d := by
  rw [List.getD_eq_get?, List.getD_eq_get?]
  by_cases hkj : k = j
  · subst hkj
    by_cases hl : k < l.length
    · rw [List.get?_set_eq_of_lt a hl]
      simp [hl]
    · rw [List.get?_eq_none.mpr (by simpa [Nat.not_lt] using hl),
        List.get?_eq_none.mpr (by simp [Nat.not_lt] at hl; simpa using hl)]
      simp [hl]
  · rw [List.get?_set_ne a l hkj]
    simp [hkj]

lemma getD_replicate (a : α) : ∀ (n j : Nat), (List.replicate n a).getD j a = a
  | 0, _ => rfl
  | _ + 1, 0 => rfl
  | n + 1, j + 1 => by
      rw [List.replicate_succ, List.getD_cons_succ]
      exact getD_replicate a n j

lemma isr_discards_le (lpit1 lpit0 : Nat) (st : InstState) :
    st.discards ≤ (S32K_libuavcan_ISR_handler lpit1 lpit0 st).discards := by
  unfold S32K_libuavcan_ISR_handler
  dsimp only
  split
  · split <;> simp
  · exact Nat.le_refl _

lemma transmit_discards (mb : Nat) (f : Frame) (inst : InstState) :
    (messageBuffer_Transmit mb f inst).2.discards = inst.discards := rfl

lemma programFilters_discards : ∀ (fc : List Filter) (j : Nat) (inst : InstState),
    (programFilters fc j inst).discards = inst.discards
  | [], _, _ => rfl
  | f :: rest, j, inst => programFilters_discards rest (j + 1) _

lemma reconfigureInst_discards (fc : List Filter) (status : Result) (inst : InstState) :
    (reconfigureInst fc status inst).2.discards = inst.discards := by
  unfold reconfigureInst
  dsimp only
  repeat' split
  all_goals simp [programFilters_discards]

lemma reconfigureLoop_discards : ∀ (fc : List Filter) (status : Result)
    (insts : List InstState) (j : Nat) (d : InstState),
    (((reconfigureLoop fc status insts).2).getD j d).discards = (insts.getD j d).discards
  | _, _, [], _, _ => rfl
  | fc, status, inst :: rest, 0, d => by
      simp [reconfigureLoop, reconfigureInst_discards]
  | fc, status, inst :: rest, j + 1, d => by
      simp only [reconfigureLoop, List.getD_cons_succ]
      exact reconfigureLoop_discards fc _ rest j d

lemma startInstInit_discards (fc : List Filter) (inst : InstState) :
    (startInstInit fc inst).discards = inst.discards := by
  unfold startInstInit
  simp [programFilters_discards]

lemma getD_map_discards (f : InstState → InstState)
    (hf : ∀ i, (f i).discards = i.discards) :
    ∀ (l : List InstState) (j : Nat) (d : InstState),
      ((l.map f).getD j d).discards = (l.getD j d).discards
  | [], _, _ => rfl
  | a :: t, 0, d => by simpa using hf a
  | a :: t, j + 1, d => by
      simpa using getD_map_discards f hf t j d

lemma stopLoop_discards : ∀ (status : Result) (insts : List InstState) (j : Nat)
    (d : InstState),
    (((stopLoop status insts).2).getD j d).discards = (insts.getD j d).discards
  | _, [], _, _ => rfl
  | status, inst :: rest, 0, d => by simp [stopLoop]
  | status, inst :: rest, j + 1, d => by
      simp only [stopLoop, List.getD_cons_succ]
      exact stopLoop_discards _ rest j d

lemma read_eq_badarg {c idx : Nat} (rl : Nat) (insts : List InstState) (h : idx > c) :
    read c rl idx insts = some (Result.BadArgument, 0, insts, none) := by
  simp [read, h, isSuccess]

lemma read_eq_oob {c idx : Nat} (rl : Nat) {insts : List InstState} (h : ¬ idx > c)
    (hg : insts.get? (idxSub1 idx) = none) : read c rl idx insts = none := by
  rw [List.get?_eq_getElem?] at hg
  simp [read, h, isSuccess, hg]

lemma read_eq_empty {c idx : Nat} (rl : Nat) {insts : List InstState} {inst : InstState}
    (h : ¬ idx > c) (hg : insts.get? (idxSub1 idx) = some inst) (hq : inst.queue = []) :
    read c rl idx insts = some (Result.SuccessNothing, 0, insts, none) := by
  rw [List.get?_eq_getElem?] at hg
  simp [read, h, isSuccess, hg, hq]

lemma read_eq_pop {c idx : Nat} (rl : Nat) {insts : List InstState} {inst : InstState}
    {f : Frame} {rest : List Frame}
    (h : ¬ idx > c) (hg : insts.get? (idxSub1 idx) = some inst)
    (hq : inst.queue = f :: rest) :
    read c rl idx insts = some (Result.Success, rl,
      insts.set (idxSub1 idx) { inst with queue := rest }, some f) := by
  rw [List.get?_eq_getElem?] at hg
  simp [read, h, isSuccess, hg, hq]

lemma write_eq_oob {c idx : Nat} (tl fl : Nat) (f : Frame) {insts : List InstState}
    (hg : insts.get? (idxSub1 idx) = none) : write c tl idx fl f insts = none := by
  rw [List.get?_eq_getElem?] at hg
  simp [write, hg]

lemma write_eq_ready {c idx : Nat} (tl fl : Nat) (f : Frame) {insts : List InstState}
    {inst : InstState} (hg : insts.get? (idxSub1 idx) = some inst)
    (hready : inst.esr2 &&& CAN_ESR2_IMB_MASK ≠ 0 ∧ inst.esr2 &&& CAN_ESR2_VPS_MASK ≠ 0) :
    write c tl idx fl f insts =
      some ((messageBuffer_Transmit ((inst.esr2 &&& CAN_ESR2_LPTM_MASK) >>> 16) f inst).1,
        some (if isSuccess (messageBuffer_Transmit ((inst.esr2 &&& CAN_ESR2_LPTM_MASK) >>> 16) f inst).1 then tl else 0),
        insts.set (idxSub1 idx)
          (messageBuffer_Transmit ((inst.esr2 &&& CAN_ESR2_LPTM_MASK) >>> 16) f inst).2) := by
  rw [List.get?_eq_getElem?] at hg
  simp [write, hg, hready]

lemma write_eq_notready {c idx : Nat} (tl fl : Nat) (f : Frame) {insts : List InstState}
    {inst : InstState} (hg : insts.get? (idxSub1 idx) = some inst)
    (hready : ¬ (inst.esr2 &&& CAN_ESR2_IMB_MASK ≠ 0 ∧ inst.esr2 &&& CAN_ESR2_VPS_MASK ≠ 0)) :
    write c tl idx fl f insts =
      some (if fl > tl ∨ idx > c then Result.BadArgument else Result.BufferFull, none, insts) := by
  rw [List.get?_eq_getElem?] at hg
  simp only [write, List.get?_eq_getElem?, hg]
  rw [if_neg hready]

lemma getD_discards_of_get? {insts : List InstState} {k : Nat} {inst : InstState}
    (hg : insts.get? k = some inst) (d : InstState) :
    (insts.getD k d).discards = inst.discards := by
  rw [List.getD_eq_get?, hg]
  rfl

lemma read_insts_discards (c rl idx : Nat) (insts : List InstState)
    (r : Result × Nat × List InstState × Option Frame)
    (hr : read c rl idx insts = some r) (j : Nat) (d : InstState) :
    ((r.2.2.1).getD j d).discards = (insts.getD j d).discards := by
  by_cases h : idx > c
  · rw [read_eq_badarg rl insts h] at hr
    cases hr
    rfl
  · rcases hg : insts.get? (idxSub1 idx) with _ | inst
    · rw [read_eq_oob rl h hg] at hr
      cases hr
    · rcases hq : inst.queue with _ | ⟨f, rest⟩
      · rw [read_eq_empty rl h hg hq] at hr
        cases hr
        rfl
      · rw [read_eq_pop rl h hg hq] at hr
        cases hr
        dsimp only
        rw [getD_set]
        split
        · rename_i hc
          rw [← hc.1, getD_discards_of_get? hg]
        · rfl

lemma write_insts_discards (c tl idx fl : Nat) (f : Frame) (insts : List InstState)
    (r : Result × Option Nat × List InstState)
    (hr : write c tl idx fl f insts = some r) (j : Nat) (d : InstState) :
    ((r.2.2).getD j d).discards = (insts.getD j d).discards := by
  rcases hg : insts.get? (idxSub1 idx) with _ | inst
  · rw [write_eq_oob tl fl f hg] at hr
    cases hr
  · by_cases hready : inst.esr2 &&& CAN_ESR2_IMB_MASK ≠ 0 ∧ inst.esr2 &&& CAN_ESR2_VPS_MASK ≠ 0
    · rw [write_eq_ready tl fl f hg hready] at hr
      cases hr
      dsimp only
      rw [getD_set]
      split
      · rename_i hc
        rw [transmit_discards, ← hc.1, getD_discards_of_get? hg]
      · rfl
    · rw [write_eq_notready tl fl f hg hready] at hr
      cases hr
      rfl

lemma getD_map_lt {α β : Type} (f : α → β) : ∀ (l : List α) (i : Nat) (d0 : β) (d1 : α),
    i < l.length → (l.map f).getD i d0 = f (l.getD i d1)
  | [], i, _, _, h => by simp at h
  | a :: t, 0, _, _, _ => rfl
  | a :: t, i + 1, d0, d1, h =>
      getD_map_lt f t i d0 d1 (by simpa using h)

lemma getD_mem_of_lt {α : Type} (l : List α) (i : Nat) (d : α) (h : i < l.length) :
    l.getD i d ∈ l := by
  rcases hg : l.get? i with _ | w
  · exact absurd (List.get?_eq_none.mp hg) (by omega)
  · rw [List.getD_eq_get?, hg]
    exact List.get?_mem hg

lemma readDrain_spec (count rxLen idx : Nat) (h2 : ¬ idx > count) :
    ∀ (q : List Frame) (insts : List InstState) (inst : InstState),
      insts.get? (idxSub1 idx) = some inst → inst.queue = q →
      readDrain count rxLen idx insts q.length = q := by
  intro q
  induction q with
  | nil =>
      intro insts inst hget hq
      simp [readDrain]
  | cons f rest ih =>
      intro insts inst hget hq
      have hread := read_eq_pop rxLen h2 hget hq
      simp only [List.length_cons, readDrain, hread]
      congr 1
      apply ih (insts.set (idxSub1 idx) { inst with queue := rest }) { inst with queue := rest }
      · have hlt : idxSub1 idx < insts.length := by
          rcases List.get?_eq_some.mp hget with ⟨hl, _⟩
          exact hl
        exact List.get?_set_eq_of_lt _ hlt
      · rfl

/-! ### Claim theorems -/

/-- Claim C1: the claim states that the inbound queue length never
exceeds Frame_Capacity = 40 and that an ISR admission finding the
queue at capacity leaves the queue unchanged, does not decode, and
increments the discard counter.  The code instead admits a frame
while the queue holds exactly 40 frames (the guard is size at most
capacity, not size below capacity, contradicting the comment above
it), so one interrupt on a queue at capacity grows it to 41 frames
and leaves the discard counter untouched. -/
theorem fv_C1 :
    Frame_Capacity = 40 ∧
    instAtCapacity.queue.length = Frame_Capacity ∧
    (S32K_libuavcan_ISR_handler 0 0 instAtCapacity).queue.length = Frame_Capacity + 1 ∧
    (S32K_libuavcan_ISR_handler 0 0 instAtCapacity).discards = instAtCapacity.discards := by
  refine ⟨rfl, by decide, by decide, rfl⟩

/-- Claim C2 counterexample: with the completion flags of message
buffers 2 and 3 raised at the same time, at least one valid
receive-mailbox flag position is set, yet the handler is a complete
no-op: no queue, counter or flag changes and no flag is cleared,
against the claim that exactly one pending mailbox is then serviced
and its flag cleared. -/
theorem fv_C2_counterexample :
    instTwoFlags.iflag1 &&& 124 ≠ 0 ∧
    S32K_libuavcan_ISR_handler 0 0 instTwoFlags = instTwoFlags := by
  exact ⟨by decide, rfl⟩

/-- Claim C3: the claim states that reconfigureFilters polls with
timeout for the freeze acknowledge after requesting freeze mode and
only zeroes the mailbox memory after the acknowledge was observed,
aborting with Failure on a timeout before any rewrite.  The code
has no freeze-entry poll at all: with an instance whose MCR never
shows FRZACK (the acknowledge is never observable), the call still
zeroes the mailbox RAM and returns Success. -/
theorem fv_C3 :
    instMark.mcr &&& CAN_MCR_FRZACK_MASK = 0 ∧
    instMark.ram 0 = 7 ∧
    (reconfigureFilters [] [instMark]).1 = Result.Success ∧
    ((reconfigureFilters [] [instMark]).2.getD 0 instMark).ram 0 = 0 := by
  refine ⟨by decide, rfl, rfl, rfl⟩

/-- Claim C4: the claim states that an out-of-bounds count makes write
return BadArgument with no hardware access.  The code computes the
BadArgument status but continues: it reads ESR2, and with a free
transmit mailbox reported it encodes the frame into the mailbox RAM
and overwrites the status, here returning Success with one frame
written for frames_len = 2 against a TxFramesLen of 1. -/
theorem fv_C4 :
    (2 : Nat) > 1 ∧
    Option.map (fun r => r.1) (write 1 1 1 2 frameFive [instReady]) = some Result.Success ∧
    Option.map (fun r => r.2.1) (write 1 1 1 2 frameFive [instReady]) = some (some 1) ∧
    Option.map (fun r => (r.2.2.getD 0 instReady).ram 1) (write 1 1 1 2 frameFive [instReady]) =
      some 5 := by
  refine ⟨by norm_num, rfl, rfl, rfl⟩

/-- Claim C5: the claim states that startInterfaceGroup yields a
non-null handle exactly when it returns Success and that on
BadArgument the handle stays null.  The code assigns the singleton
address to out_group unconditionally before returning, so a call
with six filters (above the capacity of five) returns BadArgument
together with a non-null handle. -/
theorem fv_C5 :
    badFilters.length > Filter_Count ∧
    (startInterfaceGroup badFilters sysOne).1 = Result.BadArgument ∧
    isSuccess (startInterfaceGroup badFilters sysOne).1 = false ∧
    (startInterfaceGroup badFilters sysOne).2.1 = some () := by
  refine ⟨by decide, rfl, rfl, rfl⟩

set_option maxRecDepth 100000 in
/-- Claim C6 counterexample: the claim states the discard counter is
exactly zero after every successful startInterfaceGroup.  After a
first successful start, 42 receptions (one discarded), and a stop,
a second start succeeds but the counter still holds the old
non-zero value: startInterfaceGroup never resets it. -/
theorem fv_C6_counterexample :
    isSuccess (startInterfaceGroup [] ((stopInterfaceGroup sysAfterTraffic).2.2)).1 = true ∧
    ((startInterfaceGroup [] ((stopInterfaceGroup sysAfterTraffic).2.2)).2.2.insts.getD 0
      instZero).discards ≠ 0 := by
  exact ⟨rfl, by decide⟩

/-- Claim C9: during timestamp reconciliation, when the captured
16-bit hardware counter value equals the current hardware counter
value the source delta is zero and the reconciled value is exactly
the current 64-bit software clock reading divided by 80, with no
other correction. -/
theorem fv_C9 (t lpit1 lpit0 : Nat) :
    resolve_Timestamp (t % 2 ^ 32) t lpit1 lpit0 = targetSource lpit1 lpit0 / 80 := by
  unfold resolve_Timestamp
  have htar : targetSource lpit1 lpit0 < 2 ^ 64 := by
    unfold targetSource
    apply Nat.or_lt_two_pow
    · rw [Nat.shiftLeft_eq]
      have h1 : 0xFFFFFFFF - lpit1 % 2 ^ 32 ≤ 0xFFFFFFFF := by omega
      calc (0xFFFFFFFF - lpit1 % 2 ^ 32) * 2 ^ 32 ≤ 0xFFFFFFFF * 2 ^ 32 :=
            Nat.mul_le_mul_right _ h1
        _ < 2 ^ 64 := by norm_num
    · have : lpit0 % 2 ^ 32 ≤ 0xFFFFFFFF := by omega
      omega
  have hcap : t % 2 ^ 32 % 2 ^ 64 = t % 2 ^ 32 := by omega
  rw [hcap]
  simp only [gt_iff_lt, lt_irrefl, if_false, Nat.sub_self, Nat.sub_zero]
  rw [Nat.add_mod_right, Nat.mod_eq_of_lt htar]

/-- Claim C10: read and write take interface_index as 1-based; the
validation only rejects indices strictly above the interface count,
so index 0 passes it, the unsigned index arithmetic wraps 0 - 1 to
the maximal value, and in the total embedding the out-of-bounds
branch (result none) is reached from that validated input for both
operations. -/
theorem fv_C10 :
    idxSub1 0 = 2 ^ 32 - 1 ∧
    read 1 1 0 [instZero] = none ∧
    write 1 1 0 1 frameZero [instZero] = none := by
  have hg : ([instZero] : List InstState).get? (idxSub1 0) = none := by
    rw [List.get?_eq_none]
    norm_num [idxSub1]
  refine ⟨by norm_num [idxSub1], ?_, ?_⟩
  · exact read_eq_oob 1 (by norm_num) hg
  · exact write_eq_oob 1 1 frameZero hg

/-- Claim C2 (amended): per entry of the reception interrupt handler,
when the masked interrupt-flag register does not equal the single
bit of exactly one valid receive mailbox (so when no valid position
is set, and also when several are set at once), the handler changes
no queue, discard counter or flag state; when it equals exactly one
valid mailbox bit, that mailbox is serviced: its frame is decoded
and appended while the queue length is at most the capacity
(incrementing the discard counter otherwise) and the interrupt flag
of the serviced mailbox is cleared. -/
theorem fv_C2 (lpit1 lpit0 : Nat) (st : InstState) :
    (mbIndexOf (st.iflag1 &&& 124) = 0 → S32K_libuavcan_ISR_handler lpit1 lpit0 st = st) ∧
    (∀ mb, mbIndexOf (st.iflag1 &&& 124) = mb → mb ≠ 0 →
      ((S32K_libuavcan_ISR_handler lpit1 lpit0 st).iflag1.testBit mb = false ∧
       (st.queue.length ≤ Frame_Capacity →
         (S32K_libuavcan_ISR_handler lpit1 lpit0 st).queue =
           st.queue ++ [decodeMailbox st.ram mb st.timer lpit1 lpit0] ∧
         (S32K_libuavcan_ISR_handler lpit1 lpit0 st).discards = st.discards) ∧
       (Frame_Capacity < st.queue.length →
         (S32K_libuavcan_ISR_handler lpit1 lpit0 st).queue = st.queue ∧
         (S32K_libuavcan_ISR_handler lpit1 lpit0 st).discards = st.discards + 1))) := by
  constructor
  · intro h
    unfold S32K_libuavcan_ISR_handler
    dsimp only
    rw [h]
    simp
  · intro mb hmb hne
    unfold S32K_libuavcan_ISR_handler
    dsimp only
    rw [hmb, if_pos hne]
    by_cases hc : st.queue.length ≤ Frame_Capacity
    · rw [if_pos hc]
      dsimp only
      refine ⟨?_, fun _ => ⟨rfl, rfl⟩, fun hgt => absurd hc (by omega)⟩
      rw [w1cWrite_rmw]
      simp
    · rw [if_neg hc]
      dsimp only
      refine ⟨?_, fun hle => absurd hle hc, fun _ => ⟨rfl, rfl⟩⟩
      rw [w1cWrite_rmw]
      simp

/-- Claim C2 witness: the amended theorem applied to an instance with
only the flag of message buffer 2 raised and an empty queue: the
flag ends cleared and the harvested frame is appended. -/
theorem fv_C2_witness :
    (S32K_libuavcan_ISR_handler 0 0 instOneFlag).iflag1.testBit 2 = false ∧
    (S32K_libuavcan_ISR_handler 0 0 instOneFlag).queue =
      [decodeMailbox instOneFlag.ram 2 instOneFlag.timer 0 0] := by
  have h := (fv_C2 0 0 instOneFlag).2 2 (by decide) (by decide)
  exact ⟨h.1, by simpa using (h.2.1 (by decide)).1⟩

/-- Claim C6 (amended): each discard counter is monotone
non-decreasing under every operation of a group lifetime, and it is
zero immediately after the first successful startInterfaceGroup
because the counters are statically zero initialized at program
load; but startInterfaceGroup itself never writes the counters, so
a later (re)start keeps whatever was discarded before (see the
counterexample). -/
theorem fv_C6 :
    (∀ (op : DriverOp) (sys : Sys) (i : Nat) (d : InstState),
        (sys.insts.getD i d).discards ≤ ((stepOp op sys).insts.getD i d).discards) ∧
    (∀ (fc : List Filter) (sys : Sys) (i : Nat) (d : InstState),
        ((stepOp (DriverOp.start fc) sys).insts.getD i d).discards =
          (sys.insts.getD i d).discards) ∧
    (∀ (n : Nat) (fc : List Filter) (i : Nat),
        ((stepOp (DriverOp.start fc) (bootSys n)).insts.getD i instZero).discards = 0) := by
  have hstart : ∀ (fc : List Filter) (sys : Sys) (i : Nat) (d : InstState),
      ((stepOp (DriverOp.start fc) sys).insts.getD i d).discards =
        (sys.insts.getD i d).discards := by
    intro fc sys i d
    simp only [stepOp, startInterfaceGroup]
    exact getD_map_discards _ (startInstInit_discards fc) sys.insts i d
  refine ⟨?_, hstart, ?_⟩
  · intro op sys i d
    cases op with
    | isr k =>
        simp only [stepOp, isrAt]
        rcases hg : sys.insts.get? k with _ | inst
        · exact Nat.le_refl _
        · dsimp only
          rw [getD_set]
          split
          · rename_i hc
            rw [← hc.1, getD_discards_of_get? hg]
            exact isr_discards_le sys.lpit1 sys.lpit0 inst
          · exact Nat.le_refl _
    | recv k =>
        simp only [stepOp, recvAt]
        rcases hg : sys.insts.get? k with _ | inst
        · exact Nat.le_refl _
        · dsimp only
          rw [getD_set]
          split
          · rename_i hc
            rw [← hc.1, getD_discards_of_get? hg]
          · exact Nat.le_refl _
    | readOp idx =>
        simp only [stepOp]
        rcases hr : read sys.insts.length 1 idx sys.insts with _ | r
        · exact Nat.le_refl _
        · exact Nat.le_of_eq (read_insts_discards _ _ _ _ _ hr i d).symm
    | writeOp idx flen f =>
        simp only [stepOp]
        rcases hr : write sys.insts.length 1 idx flen f sys.insts with _ | r
        · exact Nat.le_refl _
        · exact Nat.le_of_eq (write_insts_discards _ _ _ _ _ _ _ hr i d).symm
    | reconfig fs =>
        simp only [stepOp, reconfigureFilters]
        split
        · exact Nat.le_refl _
        · exact Nat.le_of_eq (reconfigureLoop_discards fs Result.Success sys.insts i d).symm
    | start fs =>
        rw [hstart]
    | stop =>
        exact Nat.le_of_eq (stopLoop_discards Result.Success sys.insts i d).symm
  · intro n fc i
    rw [hstart]
    have h : ((bootSys n).insts.getD i instZero) = instZero := by
      simp only [bootSys]
      exact getD_replicate instZero n i
    rw [h]
    rfl

/-- Claim C8: for a valid 1-based instance index, read on an empty
inbound queue returns SuccessNothing with zero frames read and
leaves every queue unchanged; read on a non-empty queue removes
exactly the head frame and returns it with Success; and draining
the queue by successive reads returns the frames in exactly the
order they sit in the FIFO, which is the ISR push (tail append)
order. -/
theorem fv_C8 (count rxLen idx : Nat) (insts : List InstState) (inst : InstState)
    (h1 : 1 ≤ idx) (h2 : idx ≤ count) (h3 : idx ≤ 2 ^ 32)
    (hget : insts.get? (idx - 1) = some inst) :
    (inst.queue = [] → read count rxLen idx insts = some (Result.SuccessNothing, 0, insts, none)) ∧
    (∀ f rest, inst.queue = f :: rest →
      read count rxLen idx insts = some (Result.Success, rxLen,
        insts.set (idx - 1) { inst with queue := rest }, some f)) ∧
    readDrain count rxLen idx insts inst.queue.length = inst.queue := by
  have hidx : idxSub1 idx = idx - 1 := idxSub1_eq h1 h3
  have hnc : ¬ idx > count := by omega
  have hget2 : insts.get? (idxSub1 idx) = some inst := by
    rw [hidx]
    exact hget
  refine ⟨fun hq => read_eq_empty rxLen hnc hget2 hq, fun f rest hq => ?_, ?_⟩
  · have h := read_eq_pop rxLen hnc hget2 hq
    rwa [hidx] at h
  · exact readDrain_spec count rxLen idx hnc inst.queue insts inst hget2 rfl

/-- Claim C8 witness: the theorem applied to a single instance whose
queue holds two frames with ids 1 and 2 in push order: draining
returns them in the same order. -/
theorem fv_C8_witness :
    readDrain 1 1 1 [instQ2] 2 =
      [{ id := 1, payload := [], timestamp := 0 }, { id := 2, payload := [], timestamp := 0 }] := by
  have h := fv_C8 1 1 1 [instQ2] instQ2 (by norm_num) (by norm_num) (by norm_num) rfl
  exact h.2.2

/-- Claim C7: for every frame whose id fits in 29 bits and whose
payload length is a valid CAN-FD byte length in 0..64, encoding the
frame into the mailbox word layout (id word, control word carrying
the DLC, payload words byte-reversed four at a time including a
final partial word) and decoding that layout back reproduces the
original id, payload bytes and byte length exactly. -/
theorem fv_C7 (id ts timerReg lpit1 lpit0 TX_MB_index : Nat) (payload : List Nat)
    (inst : InstState) (hid : id < 2 ^ 29) (hbytes : ∀ b ∈ payload, b < 256)
    (hlen : payload.length ∈ validFDLengths) :
    (decodeMailbox ((messageBuffer_Transmit TX_MB_index
        { id := id, payload := payload, timestamp := ts } inst).2).ram
        TX_MB_index timerReg lpit1 lpit0).id = id ∧
    (decodeMailbox ((messageBuffer_Transmit TX_MB_index
        { id := id, payload := payload, timestamp := ts } inst).2).ram
        TX_MB_index timerReg lpit1 lpit0).payload = payload := by
  obtain ⟨hdlc_extract, hdlc_len⟩ := dlc_roundtrip hlen
  have hoff : MB_Data_Offset = 2 := rfl
  set base := TX_MB_index * MB_Size_Words with hbase
  set ws := (bytesToWords payload).map rev32 with hws
  set ram0 := writeWords inst.ram (base + MB_Data_Offset) ws with hram0
  set ram1 := upd ram0 (base + 1) (id &&& CAN_WMBn_ID_ID_MASK) with hram1
  set ram2 := upd ram1 base (txControlWord (lengthToDlc payload.length)) with hram2
  have hramEq : ((messageBuffer_Transmit TX_MB_index
      { id := id, payload := payload, timestamp := ts } inst).2).ram = ram2 := rfl
  have hcs : ram2 base = txControlWord (lengthToDlc payload.length) := by
    rw [hram2]
    exact upd_self _ _ _
  have hid_read : ram2 (base + 1) = id &&& CAN_WMBn_ID_ID_MASK := by
    rw [hram2, upd_other _ _ _ _ (by omega), hram1]
    exact upd_self _ _ _
  have hlenws : ws.length = wordCount payload.length := by
    rw [hws, List.length_map, bytesToWords_length]
  have hdata : ∀ i, i < wordCount payload.length →
      ram2 (base + MB_Data_Offset + i) = ws.getD i 0 := by
    intro i hi
    rw [hram2, upd_other _ _ _ _ (by omega), hram1, upd_other _ _ _ _ (by omega), hram0]
    exact writeWords_in ws inst.ram (base + MB_Data_Offset) i (by rw [hlenws]; exact hi)
  have hmask : ∀ x : Nat, x &&& CAN_WMBn_ID_ID_MASK = x % 2 ^ 29 := by
    intro x
    have h29 : CAN_WMBn_ID_ID_MASK = 2 ^ 29 - 1 := by norm_num [CAN_WMBn_ID_ID_MASK]
    rw [h29, Nat.and_pow_two_sub_one_eq_mod]
  have hwords : (List.range (wordCount payload.length)).map
      (fun i => rev32 (ram2 (base + MB_Data_Offset + i))) = bytesToWords payload := by
    rw [← bytesToWords_length payload]
    have hpt : ∀ i ∈ List.range (bytesToWords payload).length,
        rev32 (ram2 (base + MB_Data_Offset + i)) = (bytesToWords payload).getD i 0 := by
      intro i hi
      rw [List.mem_range] at hi
      rw [hdata i (by rw [← bytesToWords_length]; exact hi)]
      rw [hws, getD_map_lt rev32 (bytesToWords payload) i 0 0 hi]
      exact rev32_rev32 (bytesToWords_lt payload hbytes _ (getD_mem_of_lt _ i 0 hi))
    rw [List.map_congr_left hpt, range_map_getD]
  constructor
  · rw [hramEq]
    simp only [decodeMailbox]
    rw [hid_read, hmask id, hmask]
    omega
  · rw [hramEq]
    simp only [decodeMailbox]
    rw [hcs, hdlc_extract, hdlc_len, hwords]
    exact take_wordsToBytes_bytesToWords payload hbytes

/-- Claim C7 witness: the round trip at id 74565, payload bytes 1..7
(length 7), transmit mailbox 2. -/
theorem fv_C7_witness :
    (decodeMailbox ((messageBuffer_Transmit 2
        { id := 74565, payload := [1, 2, 3, 4, 5, 6, 7], timestamp := 0 } instZero).2).ram
        2 0 0 0).id = 74565 ∧
    (decodeMailbox ((messageBuffer_Transmit 2
        { id := 74565, payload := [1, 2, 3, 4, 5, 6, 7], timestamp := 0 } instZero).2).ram
        2 0 0 0).payload = [1, 2, 3, 4, 5, 6, 7] := by
  exact fv_C7 74565 0 0 0 0 2 [1, 2, 3, 4, 5, 6, 7] instZero (by norm_num) (by decide)
    (by decide)

end S32KModel
